import Mathlib

/-!
# A verification model of `libx`'s string constant pool (`src/strpool.c`)

This file gives a shallow embedding of the string constant pool and its
coalesced-hashing string set, translated function by function from
`src/strpool.c`, together with theorems settling the specification's claims.

Modelling conventions:

* `uint32_t` values are `Nat` with explicit reduction `% 2^32` wherever the C
  arithmetic can wrap (capacity doubling, `--set->cellar_size`, pointer
  differences).  The sentinel `-1U` is the literal `4294967295`.
* `const char *` values are `Option String`: `none` is the null pointer and
  `some s` a pointer whose pointed-to NUL-terminated bytes read `s`.  The
  strings handled are NUL-free and ASCII, so `strcmp` equality is `String`
  equality and `djb2` folds over the code points.
* The `float` fields `load_factor` (0.68) and `cellar_ratio` (0.14) are kept
  as exact per-hundred integers (`68`, `14`); the C comparisons
  `size > capacity * load_factor` and truncations
  `capacity * cellar_ratio` become `size * 100 > capacity * lf` and
  `capacity * cr / 100`, which agree with the single-precision values on
  every capacity the development touches.
* Fallible behaviour is explicit: out-of-bounds table accesses, `strcmp`
  against a null key, `_die`, and buffer writes past the allocated capacity
  become `Except` errors instead of undefined behaviour.
* The C functions mutate through pointers; the model threads the mutated
  `scp_set` / `strpool` values explicitly.  `_scp_bucket_find` recurses
  through `_scp_set_rehash`; the model makes this recursion well-founded by
  a fuel parameter that every cross-call consumes (`.fuel` signals
  exhaustion, which no theorem below ever relies on).
* `scp_init` in the C source never initialises `pool->size`; the model uses
  the documented initial value 0 (an empty buffer).
-/

deriving instance DecidableEq for Except

/-- One past the largest `uint32_t`. -/
def u32Size : Nat := 4294967296

/-- `-1U`, the invalid-index sentinel stored in `next`. -/
def u32Max : Nat := 4294967295

/-- Reduce a `Nat` to `uint32_t` range. -/
def u32Mod (n : Nat) : Nat := n % u32Size

/-- `uint32_t` decrement with wrap-around (`--x` on `x = 0` gives `-1U`). -/
def u32Dec (n : Nat) : Nat := (n + u32Max) % u32Size

/-- `uint32_t` subtraction with wrap-around. -/
def u32Sub (a b : Nat) : Nat := (a + u32Size - b % u32Size) % u32Size

/-- Errors of the model: fuel exhaustion of the embedding, and the C
undefined/aborting behaviours (out-of-bounds table access, `strcmp` against a
null key, `_die`, dereferencing a null string, and a buffer write past the
allocated capacity). -/
inductive scp_err where
  | fuel
  | oob
  | nullKey
  | die
  | nullDeref
  | bufferOverflow
deriving Repr, DecidableEq

/-- `struct _scp_bucket`: interned-string pointer, cached hash, and the index
of the next bucket of the coalesced chain (`-1U` when absent). -/
structure scp_bucket where
  key : Option String
  hash : Nat
  next : Nat
deriving Repr, DecidableEq

/-- `struct _scp_set`: the bucket array plus the bookkeeping fields.  The
`_dynamic` flag only drives `free` and is omitted.  `table.length` is the
allocated `capacity`. -/
structure scp_set where
  table : List scp_bucket
  capacity : Nat
  table_capacity : Nat
  cellar_capacity : Nat
  size : Nat
  cellar_size : Nat
  load_factor_pct : Nat
  cellar_ratio_pct : Nat
deriving Repr, DecidableEq

/-- `struct _strpool`: the index set, the character buffer (the bytes written
so far, terminators included), the allocated byte capacity and the used
size. -/
structure strpool where
  index : scp_set
  pool : List Char
  capacity : Nat
  size : Nat
deriving Repr, DecidableEq

/-- `SCP_DEFAULT_INITIAL_CAPACITY` -/
def SCP_DEFAULT_INITIAL_CAPACITY : Nat := 16

/-- `SCP_SET_DEFAULT_INITIAL_CAPACITY` -/
def SCP_SET_DEFAULT_INITIAL_CAPACITY : Nat := 16

/-- `SCP_SET_DEFAULT_CELLAR_RATIO` (0.14, as a per-hundred integer) -/
def SCP_SET_DEFAULT_CELLAR_RATIO_PCT : Nat := 14

/-- `SCP_SET_DEFAULT_LOAD_FACTOR` (0.68, as a per-hundred integer) -/
def SCP_SET_DEFAULT_LOAD_FACTOR_PCT : Nat := 68

/-- The djb2 loop `hash = hash * 33 + c` over the remaining characters,
reduced to `uint32_t` at each step. -/
def djb2Loop : List Char → Nat → Nat
  | [], h => h
  | c :: cs, h => djb2Loop cs (u32Mod (h * 33 + c.toNat))

/-- `_scp_set_djb2`: djb2 seeded with 5381; a null pointer hashes to 0. -/
def _scp_set_djb2 : Option String → Nat
  | none => 0
  | some s => djb2Loop s.data 5381

/-- `_scp_bucket_is_empty`: no key and `next == -1U`. -/
def _scp_bucket_is_empty (b : scp_bucket) : Bool :=
  b.key.isNone && b.next == u32Max

/-- `_scp_set_init_custom` (allocation aside): a `calloc`ed table whose
`next` fields are set to `-1U`, zero sizes, and the derived capacities
`cellar_capacity = capacity * cellar_ratio` (truncated) and
`table_capacity = capacity - cellar_capacity`. -/
def _scp_set_init_custom (capacity load_factor_pct cellar_ratio_pct : Nat) :
    scp_set :=
  { table := List.replicate capacity ⟨none, 0, u32Max⟩
    capacity := capacity
    table_capacity := capacity - capacity * cellar_ratio_pct / 100
    cellar_capacity := capacity * cellar_ratio_pct / 100
    size := 0
    cellar_size := 0
    load_factor_pct := load_factor_pct
    cellar_ratio_pct := cellar_ratio_pct }

/-- `_scp_set_init`: initialisation with the library defaults. -/
def _scp_set_init : scp_set :=
  _scp_set_init_custom SCP_SET_DEFAULT_INITIAL_CAPACITY
    SCP_SET_DEFAULT_LOAD_FACTOR_PCT SCP_SET_DEFAULT_CELLAR_RATIO_PCT

/-- The comparison `hash == chain->hash && strcmp (s, chain->key) == 0` of
the chain walk: short-circuits on a hash mismatch; comparing content against
a bucket whose hash matches but whose key is null is the C
`strcmp (s, NULL)`, an error. -/
def scpBucketMatches (s : String) (hash : Nat) (b : scp_bucket) :
    Except scp_err Bool :=
  if hash = b.hash then
    match b.key with
    | none => .error .nullKey
    | some k => .ok (s == k)
  else .ok false

/-- The chain walk of `_scp_bucket_find`: starting at bucket `i`, compare the
stored hash and then the full content, follow `next` until the `-1U`
sentinel.  Returns the index of the last visited bucket and whether the key
was found there.  The walk fuel only guards against cyclic `next` chains,
which would not terminate in C either. -/
def scpChainWalk (table : List scp_bucket) (s : String) (hash : Nat) :
    Nat → Nat → Except scp_err (Nat × Bool)
  | _, 0 => .error .fuel
  | i, fuel + 1 =>
    match table.get? i with
    | none => .error .oob
    | some b =>
      match scpBucketMatches s hash b with
      | .error e => .error e
      | .ok matched =>
        if matched then .ok (i, true)
        else if b.next = u32Max then .ok (i, false)
        else scpChainWalk table s hash b.next fuel

/-- The linear-probe loop of `_scp_bucket_find` (cellar exhausted): step to
`(cur + 1) % table_capacity` while the bucket there is non-empty and distinct
from the chain tail `chainIdx`; return the index where the loop stops. -/
def scpProbeLoop (table : List scp_bucket) (tcap chainIdx : Nat) :
    Nat → Nat → Except scp_err Nat
  | _, 0 => .error .fuel
  | cur, fuel + 1 =>
    let nxt := (cur + 1) % tcap
    match table.get? nxt with
    | none => .error .oob
    | some b =>
      if ¬ _scp_bucket_is_empty b ∧ chainIdx ≠ nxt then
        scpProbeLoop table tcap chainIdx nxt fuel
      else .ok nxt

/-- The `bucket_init` label of `_scp_bucket_find`: increment `size`, store
the key and hash in the bucket at `chainIdx`, and, only when `nextIdx` is a
valid pointer, redirect that bucket's `next` to it.  The function's return
value is the `next` pointer (null in the start-of-chain case) and the
`rflags` bit 0, which `bucket_init` sets. -/
def scpBucketInit (set : scp_set) (chainIdx : Nat) (nextIdx : Option Nat)
    (s : String) (hash : Nat) :
    Except scp_err (Option Nat × scp_set × Bool) :=
  match set.table.get? chainIdx with
  | none => .error .oob
  | some b =>
    let b' : scp_bucket :=
      { key := some s, hash := hash
        next := match nextIdx with | some n => n | none => b.next }
    .ok (nextIdx,
         { set with size := u32Mod (set.size + 1)
                    table := set.table.set chainIdx b' }, true)

mutual

/-- `_scp_bucket_find`: the find-or-create workhorse.  Returns the bucket
pointer it would return in C (as `Option Nat`, an index into the result
set's table, `none` for `NULL`), the resulting set, and the bit 0 of
`rflags` (cleared on a hit, set by `bucket_init`). -/
def _scp_bucket_find :
    Nat → scp_set → Option String → Bool →
      Except scp_err (Option Nat × scp_set × Bool)
  | 0, _, _, _ => .error .fuel
  | fuel + 1, set, s, create =>
    match s with
    | none => .ok (none, set, false)
    | some str =>
      if set.size * 100 > set.capacity * set.load_factor_pct then
        match _scp_set_rehash fuel set with
        | .error e => .error e
        | .ok set' => _scp_bucket_find fuel set' (some str) create
      else
        let hash := _scp_set_djb2 (some str)
        let home := hash % set.table_capacity
        match set.table.get? home with
        | none => .error .oob
        | some hb =>
          match (if _scp_bucket_is_empty hb then .ok (home, false)
                 else scpChainWalk set.table str hash home
                        (set.capacity + 1)) with
          | .error e => .error e
          | .ok (last, found) =>
            if found then .ok (some last, set, false)
            else if !create then .ok (none, set, false)
            else
              match set.table.get? last with
              | none => .error .oob
              | some lb =>
                if _scp_bucket_is_empty lb then
                  scpBucketInit set last none str hash
                else if set.cellar_size < set.cellar_capacity then
                  let cs := u32Dec set.cellar_size
                  scpBucketInit { set with cellar_size := cs } last
                    (some (u32Sub set.capacity cs)) str hash
                else
                  match scpProbeLoop set.table set.table_capacity last last
                          (set.table_capacity + 1) with
                  | .error e => .error e
                  | .ok nxt =>
                    if nxt = last then
                      if set.size < set.capacity then .error .die
                      else
                        match _scp_set_rehash fuel
                                { set with load_factor_pct :=
                                    SCP_SET_DEFAULT_LOAD_FACTOR_PCT } with
                        | .error e => .error e
                        | .ok set' =>
                          _scp_bucket_find fuel set' (some str) create
                    else scpBucketInit set last (some nxt) str hash

/-- `_scp_set_rehash`: reinitialise the set at double capacity and re-add
every key the old table held, in index order. -/
def _scp_set_rehash : Nat → scp_set → Except scp_err scp_set
  | 0, _ => .error .fuel
  | fuel + 1, set =>
    scpAddAll fuel
      (_scp_set_init_custom (u32Mod (set.capacity * 2)) set.load_factor_pct
        set.cellar_ratio_pct)
      (set.table.filterMap (·.key))

/-- The re-adding loop of `_scp_set_rehash`: `_scp_set_add` each key in
turn. -/
def scpAddAll : Nat → scp_set → List String → Except scp_err scp_set
  | _, set, [] => .ok set
  | 0, _, _ :: _ => .error .fuel
  | fuel + 1, set, k :: ks =>
    match _scp_bucket_find fuel set (some k) true with
    | .error e => .error e
    | .ok (_, set', _) => scpAddAll fuel set' ks

end

/-- `_scp_set_add`: find with creation; the returned flag is `rflags & 1`. -/
def _scp_set_add (fuel : Nat) (set : scp_set) (s : Option String) :
    Except scp_err (Bool × scp_set) :=
  match _scp_bucket_find fuel set s true with
  | .error e => .error e
  | .ok (_, set', flag) => .ok (flag, set')

/-- `_scp_set_contains`: as written in the source, the result of comparing
the found bucket pointer against `NULL` (`_scp_bucket_find (...) == NULL`). -/
def _scp_set_contains (fuel : Nat) (set : scp_set) (s : Option String) :
    Except scp_err (Bool × scp_set) :=
  match _scp_bucket_find fuel set s false with
  | .error e => .error e
  | .ok (bopt, set', _) => .ok (bopt.isNone, set')

/-- `_scp_set_get`: the found bucket's `key` pointer, or `NULL`. -/
def _scp_set_get (fuel : Nat) (set : scp_set) (s : Option String) :
    Except scp_err (Option String × scp_set) :=
  match _scp_bucket_find fuel set s false with
  | .error e => .error e
  | .ok (none, set', _) => .ok (none, set')
  | .ok (some i, set', _) =>
    match set'.table.get? i with
    | none => .error .oob
    | some b => .ok (b.key, set')

/-- `scp_init` applied to a fresh pool: default index set, a 16-byte buffer
and (see the file comment) an empty size. -/
def scp_init : strpool :=
  { index := _scp_set_init
    pool := []
    capacity := SCP_DEFAULT_INITIAL_CAPACITY
    size := 0 }

/-- `scp_new_capacity`: doubled-plus-two growth, `_die` on a wrapped
request, saturation at `UINT32_MAX` when the doubling itself wraps. -/
def scp_new_capacity (pool : strpool) (min_capacity : Nat) :
    Except scp_err Nat :=
  let old_capacity := pool.capacity
  let new_capacity := u32Mod (old_capacity * 2 + 2)
  if min_capacity < old_capacity then .error .die
  else if new_capacity < old_capacity then .ok u32Max
  else .ok (if new_capacity > min_capacity then new_capacity else min_capacity)

/-- `scp_ensure_capacity`: grow (by `realloc`, which preserves contents)
only when `min_capacity >= capacity`. -/
def scp_ensure_capacity (pool : strpool) (min_capacity : Nat) :
    Except scp_err strpool :=
  if min_capacity < pool.capacity then .ok pool
  else
    match scp_new_capacity pool min_capacity with
    | .error e => .error e
    | .ok nc => .ok { pool with capacity := nc }

/-- `scp_insert_string`: look the string up, and if absent append it to the
buffer (the `strcpy` plus the explicit terminator write need indices
`size .. size + str_len` within the allocated capacity) and register the
copy in the index.  The function returns the result of the initial lookup.
A null `s` that survives the lookup reaches `strnlen (s, ...)`, a null
dereference. -/
def scp_insert_string (fuel : Nat) (pool : strpool) (s : Option String) :
    Except scp_err (Option String × strpool) :=
  match _scp_set_get fuel pool.index s with
  | .error e => .error e
  | .ok (pooled_str, idx') =>
    let pool := { pool with index := idx' }
    match pooled_str with
    | some r => .ok (some r, pool)
    | none =>
      match s with
      | none => .error .nullDeref
      | some str =>
        let str_len := min str.data.length u32Max
        match scp_ensure_capacity pool (u32Mod (pool.size + str_len)) with
        | .error e => .error e
        | .ok pool =>
          if pool.size + str_len < pool.capacity then
            let pool :=
              { pool with pool := pool.pool ++ str.data ++ [Char.ofNat 0] }
            match _scp_set_add fuel pool.index (some str) with
            | .error e => .error e
            | .ok (_, idx2) =>
              .ok (none, { pool with index := idx2
                                     size := u32Mod (pool.size + str_len + 1) })
          else .error .bufferOverflow

/-- Fold `scp_insert_string` over a list of strings, discarding the returned
references (the usual interning loop of a client). -/
def scpRunInserts (fuel : Nat) : strpool → List (Option String) →
    Except scp_err strpool
  | pool, [] => .ok pool
  | pool, s :: ss =>
    match scp_insert_string fuel pool s with
    | .error e => .error e
    | .ok (_, pool') => scpRunInserts fuel pool' ss

/-- The capacity bookkeeping invariant of the set:
`cellar_capacity == floor (capacity * cellar_ratio)` (in the per-hundred
model of the ratio) and `table_capacity + cellar_capacity == capacity`. -/
def scpSetInv (set : scp_set) : Prop :=
  set.cellar_capacity = set.capacity * set.cellar_ratio_pct / 100 ∧
  set.table_capacity + set.cellar_capacity = set.capacity

/-- `scpSetInv` together with the sanity bound on the stored ratio that the
library defaults satisfy and every rehash passes along. -/
def scpSetGood (set : scp_set) : Prop :=
  set.cellar_ratio_pct ≤ 100 ∧ scpSetInv set

instance (set : scp_set) : Decidable (scpSetInv set) := by
  unfold scpSetInv; infer_instance

instance (set : scp_set) : Decidable (scpSetGood set) := by
  unfold scpSetGood; infer_instance

/-! ## Concrete executions used by the claim theorems

`"a"` and `"o"` have djb2 hashes 177670 and 177684, congruent mod the default
`table_capacity` 14, so they share home bucket 10; `"a" .. "k"` occupy eleven
pairwise distinct home buckets. -/

/-- The pool after interning `"a"` into a fresh pool. -/
def scpPoolA : strpool :=
  match scp_insert_string 50 scp_init (some "a") with
  | .ok (_, p) => p
  | .error _ => scp_init

/-- The pool after interning `"a"` and then the colliding `"o"`. -/
def scpPoolAO : strpool :=
  match scp_insert_string 50 scpPoolA (some "o") with
  | .ok (_, p) => p
  | .error _ => scp_init

/-- The index set after `_scp_bucket_find`-with-create of `"o"` on
`scpPoolA`'s index (the colliding insert, observed at set level). -/
def scpSetAfterO : scp_set :=
  match _scp_bucket_find 50 scpPoolA.index (some "o") true with
  | .ok (_, s, _) => s
  | .error _ => _scp_set_init

/-- A set initialised by the source's own `_scp_set_init_custom` with
capacity 4 and the default ratios: `cellar_capacity = 0`,
`table_capacity = 4`, and the load-factor threshold is crossed at
`size = 3 > 4 * 0.68`.  `"a"` (hash 177670) and `"e"` (hash 177674) collide
mod 4; `"b"` lands in home bucket 3 and `"c"` in home bucket 0. -/
def scpSmallInit : scp_set := _scp_set_init_custom 4 68 14

/-- A pool over `scpSmallInit` (same 16-byte buffer as `scp_init`). -/
def scpSmallPool : strpool :=
  { index := scpSmallInit
    pool := []
    capacity := SCP_DEFAULT_INITIAL_CAPACITY
    size := 0 }

/-- Four interns on the small pool: `"a"`, the colliding `"e"`, the filler
`"b"`, then `"c"`, whose initial lookup finds `size = 3` past the load
factor and triggers the rehash to capacity 8. -/
def scpOpsC3 : List (Option String) :=
  [some "a", some "e", some "b", some "c"]

/-- The pool after running `scpOpsC3` on the small pool. -/
def scpPoolC3 : strpool :=
  match scpRunInserts 50 scpSmallPool scpOpsC3 with
  | .ok p => p
  | .error _ => scpSmallPool

/-- The small set after adding `"a"`, `"e"` and `"b"`: `size = 3` exceeds
the load-factor threshold, so the very next find — even a pure lookup —
rehashes. -/
def scpSmallSet : scp_set :=
  match scpAddAll 50 scpSmallInit ["a", "e", "b"] with
  | .ok s => s
  | .error _ => scpSmallInit

/-- The set that the lookup `_scp_set_contains ... "x"` on `scpSmallSet`
leaves behind. -/
def scpSetGrownByLookup : scp_set :=
  match _scp_set_contains 50 scpSmallSet (some "x") with
  | .ok (_, s) => s
  | .error _ => scpSmallInit

/-- A 34-character string: interning it into a fresh pool requests exactly
`2 * 16 + 2` bytes, the boundary where `scp_new_capacity` stops growing
beyond the request. -/
def scpStr34 : String := "0123456789012345678901234567890123"

/-- The fresh pool grown for `scpStr34` (requested minimum 34). -/
def scpPool34 : strpool :=
  match scp_ensure_capacity scp_init 34 with
  | .ok p => p
  | .error _ => scp_init

/-! ## Claim theorems -/

/-- C1: `scp_insert_string` on a miss appends the content to the buffer and
registers it in the set — the content is retrievable afterwards and the
buffer holds its bytes — yet the call returns the null pointer computed by
the initial lookup, not the reference to the newly appended copy.  This
refutes the claim that the first interning returns the new reference. -/
theorem C1_first_intern_returns_null :
    scp_insert_string 50 scp_init (some "a") = .ok (none, scpPoolA) ∧
    scpPoolA.pool = "a".data ++ [Char.ofNat 0] ∧
    (scpPoolA.index.table.get? 10).map (·.key) = some (some "a") ∧
    _scp_set_get 50 scpPoolA.index (some "a") =
      .ok (some "a", scpPoolA.index) := by
  decide

/-- C2: on a colliding insert the home bucket (slot 10, holding `"a"`) does
not keep its key: it is overwritten with `"o"`, its `next` is pointed at
index 17 — outside the 16-slot table — and the previously stored content is
no longer retrievable (its lookup walks out of bounds), refuting the claim
that every entry of the chain keeps its key and both contents remain
retrievable. -/
theorem C2_collision_clobbers_chain :
    scp_insert_string 50 scpPoolA (some "o") = .ok (none, scpPoolAO) ∧
    (scpPoolAO.index.table.get? 10).map (·.key) = some (some "o") ∧
    (scpPoolAO.index.table.get? 10).map (·.next) = some 17 ∧
    scpPoolAO.index.table.get? 17 = none ∧
    _scp_set_get 50 scpPoolAO.index (some "a") = .error .oob ∧
    _scp_set_get 50 scpPoolAO.index (some "o") =
      .ok (some "o", scpPoolAO.index) := by
  decide

set_option maxHeartbeats 1000000 in
/-- C3: on the capacity-4 set, `"a"` is interned (its bytes open the
buffer), the colliding `"e"` and the filler `"b"` follow, and the fourth
intern `"c"` triggers the rehash (capacity doubled to 8).  Afterwards the
other three contents are found but looking `"a"` up returns null instead of
a reference with equal bytes — the colliding insert had overwritten its
entry, so set membership is not preserved for previously interned content,
refuting the claim. -/
theorem C3_interned_content_lost_across_rehash :
    scpRunInserts 50 scpSmallPool scpOpsC3 = .ok scpPoolC3 ∧
    scpPoolC3.index.capacity = 8 ∧
    scpPoolC3.pool.take 2 = ['a', Char.ofNat 0] ∧
    _scp_set_get 50 scpPoolC3.index (some "a") =
      .ok (none, scpPoolC3.index) ∧
    _scp_set_get 50 scpPoolC3.index (some "e") =
      .ok (some "e", scpPoolC3.index) ∧
    _scp_set_get 50 scpPoolC3.index (some "b") =
      .ok (some "b", scpPoolC3.index) ∧
    _scp_set_get 50 scpPoolC3.index (some "c") =
      .ok (some "c", scpPoolC3.index) := by
  decide

/-- C5: the colliding insert of `"o"` takes the cellar branch
(`cellar_size = 0 < 2 = cellar_capacity`), but `--set->cellar_size` wraps to
`-1U` and the chosen slot is `capacity - (-1U) = 17`, outside the cellar
region `[14, 15]` of the 16-slot array, refuting the claim that the chosen
slot lies between `table_capacity` and `capacity - 1` and that `cellar_size`
is adjusted by exactly one. -/
theorem C5_cellar_slot_out_of_range :
    scpPoolA.index.cellar_size = 0 ∧
    scpPoolA.index.cellar_capacity = 2 ∧
    scpPoolA.index.table_capacity = 14 ∧
    scpPoolA.index.capacity = 16 ∧
    _scp_bucket_find 50 scpPoolA.index (some "o") true =
      .ok (some 17, scpSetAfterO, true) ∧
    scpSetAfterO.cellar_size = 4294967295 ∧
    ¬ (14 ≤ 17 ∧ 17 ≤ 16 - 1) := by
  decide

/-- C6: `_scp_set_contains` returns `_scp_bucket_find (...) == NULL`: on a
fresh set it answers `true` for the absent `"a"` (whose `get` is null), and
after `"a"` is interned it answers `false` although `get` returns the
reference — the exact inversion of the claimed contract. -/
theorem C6_contains_inverted :
    _scp_set_contains 50 scp_init.index (some "a") =
      .ok (true, scp_init.index) ∧
    _scp_set_get 50 scp_init.index (some "a") =
      .ok (none, scp_init.index) ∧
    _scp_set_contains 50 scpPoolA.index (some "a") =
      .ok (false, scpPoolA.index) := by
  decide

/-- C9: a null content is rejected as "not found" by the set search itself
(`_scp_bucket_find` returns null leaving the set untouched), but the insert
path of `scp_insert_string` then runs `strnlen (s, ...)`/`strcpy (..., s)`
on the null pointer — a crash, not the claimed rejection. -/
theorem C9_null_insert_dereferences_null :
    _scp_bucket_find 50 scp_init.index none true =
      .ok (none, scp_init.index, false) ∧
    _scp_set_get 50 scp_init.index none = .ok (none, scp_init.index) ∧
    scp_insert_string 50 scp_init none = .error .nullDeref := by
  decide

/-- C10: for a fresh pool (capacity 16, size 0) and a 34-byte string the
requested minimum `size + str_len = 34` reaches `2 * old_capacity + 2`, so
`scp_new_capacity` returns the minimum itself and the grown capacity equals
`size + str_len` instead of exceeding it; the terminator write at index
`size + str_len` is out of bounds, and the modelled insert faults, refuting
the claim that the capacity is strictly greater in every case. -/
theorem C10_terminator_write_out_of_bounds :
    scpStr34.data.length = 34 ∧
    scp_ensure_capacity scp_init (scp_init.size + 34) = .ok scpPool34 ∧
    scpPool34.capacity = 34 ∧
    ¬ scpPool34.capacity > scpPool34.size + 34 ∧
    scp_insert_string 50 scp_init (some scpStr34) =
      .error .bufferOverflow := by
  decide

/-- C4: interning `"a"` twice into a fresh pool returns the null pointer the
first time and the canonical reference the second time — the two returned
references do not denote identical bytes (one denotes none at all),
refuting the claim; the second call does leave the pool unchanged. -/
theorem C4_two_interns_disagree :
    scp_insert_string 50 scp_init (some "a") = .ok (none, scpPoolA) ∧
    scp_insert_string 50 scpPoolA (some "a") = .ok (some "a", scpPoolA) ∧
    (none : Option String) ≠ some "a" := by
  decide

/-- C7: `scpSmallSet` (capacity 4, size 3) sits past the load-factor
threshold, so the pure lookup `contains "x"` — `"x"` was never inserted —
rehashes the set: the resulting set has capacity 8 and differs from the
input, refuting the claim that a lookup never mutates the set. -/
theorem C7_lookup_mutates_past_threshold :
    scpAddAll 50 scpSmallInit ["a", "e", "b"] = .ok scpSmallSet ∧
    scpSmallSet.capacity = 4 ∧
    scpSmallSet.size = 3 ∧
    _scp_set_contains 50 scpSmallSet (some "x") =
      .ok (true, scpSetGrownByLookup) ∧
    scpSetGrownByLookup.capacity = 8 ∧
    scpSetGrownByLookup ≠ scpSmallSet := by
  decide

/-! ## Universal lemmas: found keys, lookup purity, and the capacity
invariant -/

/-- A successful content comparison means the bucket stores exactly the
searched string. -/
theorem scpBucketMatches_true {s : String} {hash : Nat} {b : scp_bucket}
    (h : scpBucketMatches s hash b = .ok true) : b.key = some s := by
  unfold scpBucketMatches at h
  split at h
  · cases hk : b.key with
    | none => rw [hk] at h; exact absurd h (by simp)
    | some k =>
      rw [hk] at h
      simp only [Except.ok.injEq] at h
      have : s = k := by simpa using h
      rw [this]
  · simp at h

/-- A chain walk that reports a hit stops on a bucket whose key is the
searched string. -/
theorem scpChainWalk_found {table : List scp_bucket} {s : String} {hash : Nat} :
    ∀ fuel i j, scpChainWalk table s hash i fuel = .ok (j, true) →
      ∃ b, table.get? j = some b ∧ b.key = some s := by
  intro fuel
  induction fuel with
  | zero => intro i j h; exact absurd h (by simp [scpChainWalk])
  | succ n ih =>
    intro i j h
    rw [scpChainWalk] at h
    split at h
    · exact absurd h (by simp)
    · rename_i b hget
      split at h
      · exact absurd h (by simp)
      · rename_i matched hmatch
        split at h
        · rename_i hm
          simp only [Except.ok.injEq, Prod.mk.injEq] at h
          exact ⟨b, h.1 ▸ hget, scpBucketMatches_true (hm ▸ hmatch)⟩
        · split at h
          · exact absurd h (by simp)
          · exact ih _ _ h

/-- A lookup (no creation intent) that returns a bucket pointer points at a
bucket of the result set whose key is the searched string. -/
theorem scpBucketFind_lookup_found :
    ∀ fuel (set : scp_set) (str : String) (i : Nat) (set' : scp_set)
      (flag : Bool),
      _scp_bucket_find fuel set (some str) false = .ok (some i, set', flag) →
      ∃ b, set'.table.get? i = some b ∧ b.key = some str := by
  intro fuel
  induction fuel with
  | zero =>
    intro set str i set' flag h
    exact absurd h (by simp [_scp_bucket_find])
  | succ n ih =>
    intro set str i set' flag h
    rw [_scp_bucket_find] at h
    dsimp only at h
    split at h
    case isTrue =>
      split at h
      · exact absurd h (by simp)
      · exact ih _ _ _ _ _ h
    case isFalse =>
      split at h
      · exact absurd h (by simp)
      next hb hget =>
        split at h
        · exact absurd h (by simp)
        next last found hwalk =>
          split at h
          case isTrue hfound =>
            simp only [Except.ok.injEq, Prod.mk.injEq, Option.some.injEq] at h
            obtain ⟨hi, hset, -⟩ := h
            subst hset
            subst hi
            subst hfound
            by_cases hemp : _scp_bucket_is_empty hb
            · rw [if_pos hemp] at hwalk
              exact absurd hwalk (by simp)
            · rw [if_neg hemp] at hwalk
              exact scpChainWalk_found _ _ _ hwalk
          case isFalse hfound =>
            exact absurd h (by simp)

/-- A hit of `_scp_set_get` returns the stored bytes of the searched
content: the returned reference reads back equal. -/
theorem scpSetGet_found_eq {fuel : Nat} {set : scp_set} {c r : String}
    {set' : scp_set}
    (h : _scp_set_get fuel set (some c) = .ok (some r, set')) : r = c := by
  unfold _scp_set_get at h
  split at h
  · exact absurd h (by simp)
  · exact absurd h (by simp)
  next i set'' flag hfind =>
    split at h
    · exact absurd h (by simp)
    next b hget =>
      obtain ⟨b', hget', hkey⟩ := scpBucketFind_lookup_found _ _ _ _ _ _ hfind
      simp only [Except.ok.injEq, Prod.mk.injEq] at h
      obtain ⟨hbk, hset⟩ := h
      rw [hget] at hget'
      cases hget'
      rw [hkey] at hbk
      exact (Option.some.injEq _ _ ▸ hbk).symm

/-- A find without creation intent, on a set below the load-factor
threshold, leaves the set untouched. -/
theorem scpBucketFind_lookup_pure (fuel : Nat) (set : scp_set)
    (s : Option String)
    (hlf : ¬ set.size * 100 > set.capacity * set.load_factor_pct)
    (out : Option Nat × scp_set × Bool)
    (h : _scp_bucket_find fuel set s false = .ok out) : out.2.1 = set := by
  cases fuel with
  | zero => exact absurd h (by simp [_scp_bucket_find])
  | succ n =>
    cases s with
    | none =>
      rw [_scp_bucket_find] at h
      simp only [Except.ok.injEq] at h
      rw [← h]
    | some str =>
      rw [_scp_bucket_find] at h
      dsimp only at h
      rw [if_neg hlf] at h
      split at h
      · exact absurd h (by simp)
      next hb hget =>
        split at h
        · exact absurd h (by simp)
        next last found hwalk =>
          split at h
          · simp only [Except.ok.injEq] at h
            rw [← h]
          · rw [if_pos (by simp)] at h
            simp only [Except.ok.injEq] at h
            rw [← h]

/-- Initialisation establishes the capacity bookkeeping invariant whenever
the stored ratio is a genuine percentage. -/
theorem scpSetGood_init_custom (cap lfp crp : Nat) (h : crp ≤ 100) :
    scpSetGood (_scp_set_init_custom cap lfp crp) := by
  refine ⟨h, rfl, ?_⟩
  have hle : cap * crp / 100 ≤ cap := by
    have := Nat.div_le_div_right (c := 100) (Nat.mul_le_mul_left cap h)
    simpa [Nat.mul_div_cancel] using this
  simp only [_scp_set_init_custom]
  omega

/-- The `bucket_init` writes touch only `size` and the table, so the
capacity invariant survives them. -/
theorem scpBucketInit_good {set : scp_set} {ci : Nat} {ni : Option Nat}
    {s : String} {hash : Nat} {out : Option Nat × scp_set × Bool}
    (hg : scpSetGood set)
    (h : scpBucketInit set ci ni s hash = .ok out) : scpSetGood out.2.1 := by
  unfold scpBucketInit at h
  split at h
  · exact absurd h (by simp)
  · simp only [Except.ok.injEq] at h
    rw [← h]
    exact hg

/-- Changing only `cellar_size` keeps the capacity invariant. -/
theorem scpSetGood_cellar_size {set : scp_set} (hg : scpSetGood set)
    (cs : Nat) : scpSetGood { set with cellar_size := cs } := hg

/-- Changing only `load_factor_pct` keeps the capacity invariant. -/
theorem scpSetGood_load_factor {set : scp_set} (hg : scpSetGood set)
    (lf : Nat) : scpSetGood { set with load_factor_pct := lf } := hg

/-- Every operation of the find/rehash/re-add recursion preserves the
capacity bookkeeping invariant (a rehash re-establishes it from scratch via
`_scp_set_init_custom`). -/
theorem scpFindRehashAddAllGood : ∀ fuel : Nat,
    (∀ (set : scp_set) (s : Option String) (create : Bool)
        (out : Option Nat × scp_set × Bool), scpSetGood set →
        _scp_bucket_find fuel set s create = .ok out → scpSetGood out.2.1) ∧
    (∀ (set out : scp_set), scpSetGood set →
        _scp_set_rehash fuel set = .ok out → scpSetGood out) ∧
    (∀ (set : scp_set) (ks : List String) (out : scp_set), scpSetGood set →
        scpAddAll fuel set ks = .ok out → scpSetGood out) := by
  intro fuel
  induction fuel with
  | zero =>
    refine ⟨?_, ?_, ?_⟩
    · intro set s create out _ h
      exact absurd h (by simp [_scp_bucket_find])
    · intro set out _ h
      exact absurd h (by simp [_scp_set_rehash])
    · intro set ks out hg h
      cases ks with
      | nil =>
        rw [scpAddAll] at h
        simp only [Except.ok.injEq] at h
        rw [← h]
        exact hg
      | cons k ks => exact absurd h (by simp [scpAddAll])
  | succ n ih =>
    obtain ⟨ihF, ihR, ihA⟩ := ih
    refine ⟨?_, ?_, ?_⟩
    · intro set s create out hg h
      cases s with
      | none =>
        rw [_scp_bucket_find] at h
        simp only [Except.ok.injEq] at h
        rw [← h]
        exact hg
      | some str =>
        rw [_scp_bucket_find] at h
        dsimp only at h
        split at h
        · split at h
          · exact absurd h (by simp)
          next set2 hreh => exact ihF _ _ _ _ (ihR _ _ hg hreh) h
        · split at h
          · exact absurd h (by simp)
          next hb hget =>
            split at h
            · exact absurd h (by simp)
            next last found hwalk =>
              split at h
              case isTrue hfound =>
                simp only [Except.ok.injEq] at h
                rw [← h]
                exact hg
              case isFalse hfound =>
                by_cases hc : create
                · rw [if_neg (by simp [hc])] at h
                  split at h
                  · exact absurd h (by simp)
                  next lb hlb =>
                    split at h
                    · exact scpBucketInit_good hg h
                    · split at h
                      · exact scpBucketInit_good
                          (scpSetGood_cellar_size hg _) h
                      · split at h
                        · exact absurd h (by simp)
                        next nxt hprobe =>
                          split at h
                          · split at h
                            · exact absurd h (by simp)
                            · split at h
                              · exact absurd h (by simp)
                              next set2 hreh =>
                                exact ihF _ _ _ _
                                  (ihR _ _ (scpSetGood_load_factor hg _) hreh)
                                  h
                          · exact scpBucketInit_good hg h
                · rw [if_pos (by simp [hc])] at h
                  simp only [Except.ok.injEq] at h
                  rw [← h]
                  exact hg
    · intro set out hg h
      rw [_scp_set_rehash] at h
      exact ihA _ _ _ (scpSetGood_init_custom _ _ _ hg.1) h
    · intro set ks out hg h
      cases ks with
      | nil =>
        rw [scpAddAll] at h
        simp only [Except.ok.injEq] at h
        rw [← h]
        exact hg
      | cons k ks =>
        rw [scpAddAll] at h
        split at h
        · exact absurd h (by simp)
        next o set' flag hfind => exact ihA _ _ _ (ihF _ _ _ _ hg hfind) h

/-- Growing the buffer never touches the index set. -/
theorem scpEnsureCapacity_index {pool : strpool} {m : Nat} {out : strpool}
    (h : scp_ensure_capacity pool m = .ok out) : out.index = pool.index := by
  unfold scp_ensure_capacity at h
  split at h
  · simp only [Except.ok.injEq] at h
    rw [← h]
  · split at h
    · exact absurd h (by simp)
    · simp only [Except.ok.injEq] at h
      rw [← h]

/-- Interning preserves the capacity invariant of the pool's index set. -/
theorem scpInsertGood {fuel : Nat} {pool : strpool} {s : Option String}
    {out : Option String × strpool} (hg : scpSetGood pool.index)
    (h : scp_insert_string fuel pool s = .ok out) :
    scpSetGood out.2.index := by
  have hGet : ∀ (set : scp_set) (t : Option String)
      (o : Option String × scp_set), scpSetGood set →
      _scp_set_get fuel set t = .ok o → scpSetGood o.2 := by
    intro set t o hgs hgo
    unfold _scp_set_get at hgo
    split at hgo
    · exact absurd hgo (by simp)
    next set' flag hfind =>
      simp only [Except.ok.injEq] at hgo
      rw [← hgo]
      exact (scpFindRehashAddAllGood fuel).1 _ _ _ _ hgs hfind
    next i set' flag hfind =>
      split at hgo
      · exact absurd hgo (by simp)
      · simp only [Except.ok.injEq] at hgo
        rw [← hgo]
        exact (scpFindRehashAddAllGood fuel).1 _ _ _ _ hgs hfind
  cases s with
  | none =>
    unfold scp_insert_string at h
    split at h
    · exact absurd h (by simp)
    next pooled idx' hget =>
      have hidx : scpSetGood idx' := hGet _ _ (pooled, idx') hg hget
      dsimp only at h
      split at h
      · simp only [Except.ok.injEq] at h
        rw [← h]
        exact hidx
      · exact absurd h (by simp)
  | some str =>
    unfold scp_insert_string at h
    split at h
    · exact absurd h (by simp)
    next pooled idx' hget =>
      have hidx : scpSetGood idx' := hGet _ _ (pooled, idx') hg hget
      dsimp only at h
      split at h
      · simp only [Except.ok.injEq] at h
        rw [← h]
        exact hidx
      · split at h
        · exact absurd h (by simp)
        next pool2 hens =>
          have hpool2 : scpSetGood pool2.index := by
            rw [scpEnsureCapacity_index hens]
            exact hidx
          split at h
          · split at h
            · exact absurd h (by simp)
            next flag idx2 hadd =>
              simp only [Except.ok.injEq] at h
              rw [← h]
              unfold _scp_set_add at hadd
              split at hadd
              · exact absurd hadd (by simp)
              next o set2 flag2 hfind2 =>
                simp only [Except.ok.injEq, Prod.mk.injEq] at hadd
                rw [← hadd.2]
                exact (scpFindRehashAddAllGood fuel).1 _ _ _ _ hpool2 hfind2
          · exact absurd h (by simp)

/-- Any run of interning operations preserves the capacity invariant of the
pool's index set. -/
theorem scpRunInsertsGood (fuel : Nat) :
    ∀ (ops : List (Option String)) (pool out : strpool),
      scpSetGood pool.index → scpRunInserts fuel pool ops = .ok out →
      scpSetGood out.index := by
  intro ops
  induction ops with
  | nil =>
    intro pool out hg h
    rw [scpRunInserts] at h
    simp only [Except.ok.injEq] at h
    rw [← h]
    exact hg
  | cons s ss ih =>
    intro pool out hg h
    rw [scpRunInserts] at h
    split at h
    · exact absurd h (by simp)
    next r pool' hins => exact ih _ _ (scpInsertGood hg hins) h

/-- C4 (amended): whenever `scp_insert_string` returns a non-null reference
(a hit, as the second of two interns of the same content does), the
reference's bytes equal the content and the call performs no buffer
mutation — the pool's data, size and capacity are unchanged.  (A miss
returns null, so the first of the two calls does not return the new
reference; see the counterexample.) -/
theorem C4_hit_bytes_equal_and_buffer_unchanged (fuel : Nat) (pool : strpool)
    (c r : String) (pool' : strpool)
    (h : scp_insert_string fuel pool (some c) = .ok (some r, pool')) :
    r = c ∧ pool'.pool = pool.pool ∧ pool'.size = pool.size ∧
      pool'.capacity = pool.capacity := by
  unfold scp_insert_string at h
  split at h
  · exact absurd h (by simp)
  next pooled idx' hget =>
    dsimp only at h
    split at h
    next r0 =>
      simp only [Except.ok.injEq, Prod.mk.injEq, Option.some.injEq] at h
      obtain ⟨hr, hp⟩ := h
      subst hr
      subst hp
      exact ⟨scpSetGet_found_eq hget, rfl, rfl, rfl⟩
    · split at h
      · exact absurd h (by simp)
      next pool2 hens =>
        split at h
        · split at h
          · exact absurd h (by simp)
          · exact absurd h (by simp)
        · exact absurd h (by simp)

/-- Witness for C4 (amended): the hit of the second intern of `"a"`. -/
theorem C4_hit_bytes_equal_and_buffer_unchanged_witness :
    "a" = "a" ∧ scpPoolA.pool = scpPoolA.pool ∧
      scpPoolA.size = scpPoolA.size ∧ scpPoolA.capacity = scpPoolA.capacity :=
  C4_hit_bytes_equal_and_buffer_unchanged 50 scpPoolA "a" "a" scpPoolA
    (by decide)

/-- C7 (amended): a lookup — `_scp_set_get` or `_scp_set_contains`, a find
without insertion intent — on a set at or below the load-factor threshold
performs no mutation: the resulting set is the input set, all fields
included.  (Past the threshold the find first rehashes, which is the
counterexample.) -/
theorem C7_lookup_below_threshold_is_pure (fuel : Nat) (set : scp_set)
    (s : Option String)
    (hlf : ¬ set.size * 100 > set.capacity * set.load_factor_pct) :
    (∀ out, _scp_set_get fuel set s = .ok out → out.2 = set) ∧
    (∀ out, _scp_set_contains fuel set s = .ok out → out.2 = set) := by
  constructor
  · intro out h
    unfold _scp_set_get at h
    split at h
    · exact absurd h (by simp)
    next set' flag hfind =>
      simp only [Except.ok.injEq] at h
      rw [← h]
      exact scpBucketFind_lookup_pure _ _ _ hlf _ hfind
    next i set' flag hfind =>
      split at h
      · exact absurd h (by simp)
      next b hget =>
        simp only [Except.ok.injEq] at h
        rw [← h]
        exact scpBucketFind_lookup_pure _ _ _ hlf _ hfind
  · intro out h
    unfold _scp_set_contains at h
    split at h
    · exact absurd h (by simp)
    next bopt set' flag hfind =>
      simp only [Except.ok.injEq] at h
      rw [← h]
      exact scpBucketFind_lookup_pure _ _ _ hlf _ hfind

/-- Witness for C7 (amended): the fresh default set is below the threshold
and a lookup of `"a"` on it leaves it unchanged. -/
theorem C7_lookup_below_threshold_is_pure_witness :
    ¬ scp_init.index.size * 100 >
        scp_init.index.capacity * scp_init.index.load_factor_pct ∧
      ((none : Option String), scp_init.index).2 = scp_init.index :=
  ⟨by decide,
   (C7_lookup_below_threshold_is_pure 5 scp_init.index (some "a")
       (by decide)).1 ((none : Option String), scp_init.index) (by decide)⟩

/-- C8: after pool initialisation and any sequence of insertions (with the
rehashes they trigger), the index set satisfies
`cellar_capacity = floor (capacity * cellar_ratio)` and
`table_capacity + cellar_capacity = capacity`. -/
theorem C8_capacity_invariants (fuel : Nat) (ops : List (Option String))
    (P : strpool) (h : scpRunInserts fuel scp_init ops = .ok P) :
    P.index.cellar_capacity =
        P.index.capacity * P.index.cellar_ratio_pct / 100 ∧
      P.index.table_capacity + P.index.cellar_capacity = P.index.capacity :=
  (scpRunInsertsGood fuel ops scp_init P (by decide) h).2

/-- Witness for C8: the run that interns just `"a"`. -/
theorem C8_capacity_invariants_witness :
    scpPoolA.index.cellar_capacity =
        scpPoolA.index.capacity * scpPoolA.index.cellar_ratio_pct / 100 ∧
      scpPoolA.index.table_capacity + scpPoolA.index.cellar_capacity =
        scpPoolA.index.capacity :=
  C8_capacity_invariants 50 [some "a"] scpPoolA (by decide)
